import Mathlib

/-!
Verification of the token/dapp registry synchronization module
(`src/redux/providers/tokensActions.js`, `src/redux/providers/worker.js`,
and the dapp-registry store file) against its specification.

The JavaScript is shallowly embedded: promise chains become computations in
`Except String`, with `pThen` for `.then` and `pCatch` for `.catch`; the
collaborator calls (contract RPC, local storage, HTTP) are passed in as
oracle values, so each theorem quantifies over every possible collaborator
outcome. Pure list manipulation (classification, filtering, dedup, chunking)
is embedded as Lean functions mirroring the source line by line.
-/

/-! ## Promise model

A settled promise is `Except String α`: `.ok` for fulfilled, `.error` for
rejected. `pThen p f` is `p.then(f)` (the callback may itself reject);
`pCatch p h` is `p.catch(h)`. -/

abbrev PResult (α : Type) := Except String α

def pThen {α β : Type} (p : PResult α) (f : α → PResult β) : PResult β :=
  match p with
  | .ok a => f a
  | .error e => .error e

def pCatch {α : Type} (p : PResult α) (h : String → PResult α) : PResult α :=
  match p with
  | .ok a => .ok a
  | .error e => h e

/-- `Promise.all` over a homogeneous list: fulfilled with the list of values
iff every promise is fulfilled, otherwise rejected. -/
def pAll {α : Type} : List (PResult α) → PResult (List α)
  | [] => .ok []
  | p :: ps => pThen p (fun a => pThen (pAll ps) (fun as => .ok (a :: as)))

/-- `Promise.all([p1, p2, p3])` over three heterogeneous promises. -/
def pAll3 {α β γ : Type} (p1 : PResult α) (p2 : PResult β) (p3 : PResult γ) :
    PResult (α × β × γ) :=
  pThen p1 (fun a => pThen p2 (fun b => pThen p3 (fun c => .ok (a, b, c))))

/-! ## Data model (spec section 3) -/

/-- A token record as kept in the redux state map:
`{ id, index, address, name, symbol, format, fetched, image? }`. -/
structure Token where
  id : String
  index : Nat
  address : String
  name : String
  symbol : String
  format : String
  fetched : Bool
  image : Option String
deriving DecidableEq, Repr

/-- The state token map, keyed by `id`. -/
abbrev TokensMap := List (String × Token)

/-- A resolved registry contract (only its address matters here). -/
structure Contract where
  address : String
deriving DecidableEq, Repr

/-! ## fetchTokensData classification (tokensActions.js lines 193-232)

`fetchTokensData` reads `allTokens = Object.values(tokens)`, computes
`fetchedTokenIndexes = allTokens.filter(t => t.fetched).map(t => t.index)`,
and then for each requested index pushes it onto `partialIndexes` when
`fetchedTokenIndexes.includes(tokenIndex)` and onto `fullIndexes`
otherwise. -/

def fetchedTokenIndexes (allTokens : List Token) : List Nat :=
  (allTokens.filter (fun token => token.fetched)).map (fun token => token.index)

/-- The `tokenIndexes.forEach` loop of `fetchTokensData`, pushing each index
onto one of the two accumulating arrays. Returns `(fullIndexes,
partialIndexes)`. -/
def classifyTokenIndexes (allTokens : List Token) (tokenIndexes : List Nat) :
    List Nat × List Nat :=
  tokenIndexes.foldl
    (fun acc tokenIndex =>
      if (fetchedTokenIndexes allTokens).contains tokenIndex then
        (acc.1, acc.2 ++ [tokenIndex])
      else
        (acc.1 ++ [tokenIndex], acc.2))
    ([], [])

/-! ## setTokens (tokensActions.js lines 36-61)

`setTokens(nextTokens)` merges `{...prevTokens, ...nextTokens}`, resolves the
registry contract, writes `{ tokenreg: contract.address, tokens }` to local
storage under `'_parity::tokens::' + netChain`, logs (and swallows) any
failure of that step, and then dispatches `_setTokens(nextTokens)`. -/

def tokensCacheKeyPrefixStr : String := "_parity::tokens::"

def tokensCacheKey (netChain : String) : String :=
  tokensCacheKeyPrefixStr ++ netChain

/-- First-match lookup in an id-keyed association list (JS object access). -/
def lookupTok : TokensMap → String → Option Token
  | [], _ => none
  | (k, v) :: rest, key => if k = key then some v else lookupTok rest key

/-- JS object spread `{...prev, ...next}`: keys of `prev` in order with
`next`'s value overriding, followed by the keys of `next` absent from
`prev`. -/
def jsMergeTokens (prev next : TokensMap) : TokensMap :=
  prev.map (fun kv => (kv.1, (lookupTok next kv.1).getD kv.2)) ++
    next.filter (fun kv => (lookupTok prev kv.1).isNone)

/-- A value stored under the chain-scoped cache key:
`{ tokenreg, tokens }`. `tokens := none` models an absent/falsy field. -/
structure CacheEntry where
  tokenreg : String
  tokens : Option TokensMap
deriving DecidableEq, Repr

/-- Observable outcome of one `setTokens` thunk run: the storage write that
happened (if any), the dispatched action payload (if any), and the promise
returned to the caller. -/
structure SetTokensOutcome where
  stored : Option (String × CacheEntry)
  dispatched : Option TokensMap
  result : PResult Unit
deriving Repr

/-- Run of `setTokens` (lines 36-61). `getContractR` is the settled result of
`tokenReg.getContract()`; `storeSetFails` tells whether `store.set` throws.
The chain is `getContract().then(write).catch(log).then(dispatch)`. -/
def setTokens_run (prevTokens nextTokens : TokensMap) (netChain : String)
    (getContractR : PResult Contract) (storeSetFails : Bool) : SetTokensOutcome :=
  let tokens := jsMergeTokens prevTokens nextTokens
  let lsKey := tokensCacheKey netChain
  match getContractR with
  | .error _ =>
      { stored := none, dispatched := some nextTokens, result := .ok () }
  | .ok tokenRegContract =>
      if storeSetFails then
        { stored := none, dispatched := some nextTokens, result := .ok () }
      else
        { stored := some (lsKey, ⟨tokenRegContract.address, some tokens⟩),
          dispatched := some nextTokens,
          result := .ok () }

/-! ## loadCachedTokens (tokensActions.js lines 63-88)

Reads the chain-scoped key; on a hit, dispatches the cached token map and
re-fetches the images of its fetched tokens when the stored `tokenreg`
address matches the currently resolved contract address (and the entry has a
`tokens` field), and removes the entry from the store otherwise. -/

/-- Observable outcome of one `loadCachedTokens` run: the dispatched cached
map (if any), the removed storage key (if any), and the token indexes handed
to `fetchTokensData` for the image refresh (if the cache was applied). -/
structure LoadCachedOutcome where
  dispatched : Option TokensMap
  removedKey : Option String
  refetchedIndexes : Option (List Nat)
deriving DecidableEq, Repr

/-- Run of `loadCachedTokens` (lines 63-88). `cached` is the settled value of
`store.get(lsKey)` (`none` on a miss). -/
def loadCachedTokens_run (tokenRegContract : Contract) (netChain : String)
    (cached : Option CacheEntry) : LoadCachedOutcome :=
  let lsKey := tokensCacheKey netChain
  match cached with
  | none => { dispatched := none, removedKey := none, refetchedIndexes := none }
  | some c =>
      match c.tokens with
      | some cachedTokens =>
          if c.tokenreg = tokenRegContract.address then
            { dispatched := some cachedTokens
              removedKey := none
              refetchedIndexes := some
                (((cachedTokens.map Prod.snd).filter
                    (fun t => t.fetched)).map (fun t => t.index)) }
          else
            { dispatched := none, removedKey := some lsKey, refetchedIndexes := none }
      | none =>
          { dispatched := none, removedKey := some lsKey, refetchedIndexes := none }

/-! ## lodash helpers used by the module -/

/-- lodash `uniq`: removes duplicates keeping the first occurrence of each
value, sweeping once over the list with the set of values already seen. -/
def uniqAux {α : Type} [DecidableEq α] (seen : List α) : List α → List α
  | [] => []
  | x :: xs =>
      if seen.contains x then uniqAux seen xs
      else x :: uniqAux (seen ++ [x]) xs

def uniqList {α : Type} [DecidableEq α] (l : List α) : List α :=
  uniqAux [] l

/-- lodash `chunk`: splits a list into groups of `n` (the final group may be
shorter). -/
def chunkList {α : Type} (n : Nat) : List α → List (List α)
  | [] => []
  | x :: xs =>
      if n = 0 then []
      else (x :: xs).take n :: chunkList n ((x :: xs).drop n)
termination_by l => l.length
decreasing_by
  rename_i h
  simp only [List.length_drop, List.length_cons]
  omega

/-! ## fetchTokens (tokensActions.js lines 159-185)

`fetchTokens(_tokenIndexes)` computes `uniq(_tokenIndexes || [])`, chunks the
result 64 at a time, resolves the contract, then processes the chunks
strictly sequentially through `fetchTokensData`, and catches any failure of
the whole chain. -/

/-- The chunks `fetchTokens` creates from its (possibly null/undefined)
argument; `none` models `null`/`undefined`, handled by `_tokenIndexes || []`. -/
def fetchTokens_processedChunks (tokenIndexesArg : Option (List Nat)) :
    List (List Nat) :=
  chunkList 64 (uniqList (tokenIndexesArg.getD []))

/-- The sequential `tokenChunks.forEach` promise chain: each chunk's
`fetchTokensData` run is chained after the previous one. -/
def runChunks (chunkR : List Nat → PResult Unit) : List (List Nat) → PResult Unit
  | [] => .ok ()
  | c :: cs => pThen (chunkR c) (fun _ => runChunks chunkR cs)

/-- Run of `fetchTokens` (lines 159-185). `getContractR` settles
`tokenReg.getContract()`; `chunkR c` settles the `fetchTokensData` run for
chunk `c`. -/
def fetchTokens_run (tokenIndexesArg : Option (List Nat))
    (getContractR : PResult Contract) (chunkR : List Nat → PResult Unit) :
    PResult Unit :=
  pCatch
    (pThen
      (pThen getContractR
        (fun _ => runChunks chunkR (fetchTokens_processedChunks tokenIndexesArg)))
      (fun _ => .ok ()))
    (fun _ => .ok ())

/-! ## loadTokensBasics (tokensActions.js lines 109-157)

`loadTokensBasics(_tokenIndexes, options)` computes
`prevTokensIndexes = Object.values(tokens).map(t => t.index)`, keeps only
`_tokenIndexes.filter(i => !prevTokensIndexes.includes(i))`, and if any
remain resolves the contract and chains `fetchTokensBasics` calls with
offsets `start = 0, 64, 128, ... < count` and `limit = 64`, merging the
results and dispatching a single `setTokens` at the end. -/

/-- The "Only fetch tokens we don't have yet" filter (lines 116-121). -/
def loadTokensBasics_filteredIndexes (stateTokens : TokensMap)
    (tokenIndexesArg : List Nat) : List Nat :=
  let prevTokensIndexes := (stateTokens.map Prod.snd).map (fun t => t.index)
  tokenIndexesArg.filter (fun tokenIndex => !(prevTokensIndexes.contains tokenIndex))

/-- The loop counter values of `for (let start = 0; start < count;
start += limit)` (line 135). -/
def batchStarts (count limit : Nat) : List Nat :=
  (List.range ((count + limit - 1) / limit)).map (fun k => k * limit)

/-- Modelled from the spec: `fetchTokensBasics` is imported from
`src/util/tokens`, which is not present under `src/`. The spec describes the
batching as "batches remaining indices into fixed-size groups (64) fetched
strictly sequentially", so a call with offsets `(start, limit)` fetches the
basic info of the group of remaining indices at positions
`[start, start+limit)` of the filtered list. -/
def fetchTokensBasics_groupIndexes (remaining : List Nat) (start limit : Nat) :
    List Nat :=
  (remaining.drop start).take limit

/-- All token indexes whose basic info the chained batch fetches of one
`loadTokensBasics` call request. -/
def loadTokensBasics_fetchedIndexes (stateTokens : TokensMap)
    (tokenIndexesArg : List Nat) : List Nat :=
  let remaining := loadTokensBasics_filteredIndexes stateTokens tokenIndexesArg
  ((batchStarts remaining.length 64).map
      (fun start => fetchTokensBasics_groupIndexes remaining start 64)).flatten

/-! ## fetchTokensData partial (image-only) path (tokensActions.js lines 199-232)

`tokensIndexesMap` is built by `allTokens.reduce((map, token) =>
{ map[token.index] = token; return map; }, {})` (the last token with a given
index wins); the partial results are
`imagesResult.map((image, index) => ({ ...tokensIndexesMap[partialIndexes[index]], image }))`. -/

/-- JS object access `tokensIndexesMap[i]` after the `reduce`: the last
token of `allTokens` whose `index` is `i`. -/
def tokensIndexesMapAt (allTokens : List Token) (i : Nat) : Option Token :=
  allTokens.foldl (fun acc token => if token.index = i then some token else acc) none

/-- `{...undefined, image}`: the object holding only the image field,
modelled with empty defaults for the other fields. -/
def emptyToken : Token :=
  { id := "", index := 0, address := "", name := "", symbol := "", format := "",
    fetched := false, image := none }

/-- The spread `{ ...token, image }` of the partial path, with `token`
possibly undefined. -/
def spreadTokenImage (token : Option Token) (image : String) : Token :=
  match token with
  | some t => { t with image := some image }
  | none => { emptyToken with image := some image }

/-- The `imagesResult.map(...)` of the partial path (lines 226-231), paired
positionally with `partialIndexes`. -/
def partialPathResults (allTokens : List Token) (partialIndexes : List Nat)
    (imagesResult : List String) : List Token :=
  (partialIndexes.zip imagesResult).map
    (fun p => spreadTokenImage (tokensIndexesMapAt allTokens p.1) p.2)

/-! ## Hex helpers (bytesToHex from the api format util, BigNumber parsing)

`bytesToHex` renders a byte array as a lowercase `0x`-prefixed hex string;
`new BigNumber('0x...')` parses it back as a (nonnegative) number. -/

def hexChar (n : Nat) : Char :=
  if n < 10 then Char.ofNat (48 + n) else Char.ofNat (97 + (n - 10))

def byteToHexStr (b : Nat) : String :=
  String.mk [hexChar ((b % 256) / 16), hexChar (b % 16)]

def bytesToHex (bytes : List Nat) : String :=
  "0x" ++ String.join (bytes.map byteToHexStr)

/-- Whether the first list is an initial segment of the second, by direct
structural recursion (kernel-computable on literals). -/
def charsBegin : List Char → List Char → Bool
  | [], _ => true
  | _ :: _, [] => false
  | p :: ps, c :: cs => p == c && charsBegin ps cs

/-- JS `s.substr(n)`: the characters of `s` from position `n` on. -/
def substrFrom (s : String) (n : Nat) : String :=
  String.mk (s.data.drop n)

def hexDigitVal (c : Char) : Nat :=
  if 48 ≤ c.toNat ∧ c.toNat ≤ 57 then c.toNat - 48
  else if 97 ≤ c.toNat ∧ c.toNat ≤ 102 then c.toNat - 97 + 10
  else if 65 ≤ c.toNat ∧ c.toNat ≤ 70 then c.toNat - 65 + 10
  else 0

/-- `new BigNumber(s)` on a hex string (with or without the `0x` prefix),
as a nonnegative number. -/
def hexStrVal (s : String) : Nat :=
  let body := if charsBegin "0x".data s.data then s.data.drop 2 else s.data
  body.foldl (fun acc c => acc * 16 + hexDigitVal c) 0

/-! ## fetchManifest (dapp registry store, lines 181-202)

`fetchManifest(api, manifestHash)` resolves `null` immediately when
`/^(0x)?0+/.test(manifestHash)`, otherwise issues the HTTP request
`GET /api/content/<manifestHash>/` and resolves the parsed JSON (or `null`
on a non-OK status or any failure). -/

/-- `/^(0x)?0+/.test(s)`: the regex is not anchored at the end, so it holds
iff `s` starts with `0x` followed by at least one `0`, or (with the optional
group empty) starts with at least one `0`. -/
def zeroHashRegexTest (s : String) : Bool :=
  charsBegin "0x0".data s.data || charsBegin "0".data s.data

/-- Fields picked off a resolved manifest JSON
(`author, description, name, version`). -/
structure Manifest where
  author : Option String
  description : Option String
  name : Option String
  version : Option String
deriving DecidableEq, Repr

/-- A settled `fetch` response: its `ok` flag and the result of
`response.json()`. -/
structure HttpResponse where
  respOk : Bool
  json : PResult Manifest

/-- Run of `fetchManifest` (lines 181-202). Returns the settled promise and
whether an HTTP request was issued. -/
def fetchManifest_run (manifestHash : String) (httpR : PResult HttpResponse) :
    PResult (Option Manifest) × Bool :=
  if zeroHashRegexTest manifestHash then
    (.ok none, false)
  else
    (pCatch
      (pThen httpR (fun response =>
        if response.respOk then pThen response.json (fun m => .ok (some m))
        else .ok none))
      (fun _ => .ok none),
     true)

/-! ## fetchRegistryApp (dapp registry store, lines 141-179)

Fetches image/content/manifest hashes in parallel, builds the app record
(`contentHash`/`manifestHash` are `bytesToHex(...).substr(2)`), resolves the
manifest through `fetchManifest`, merges its fields when found (nulling
`manifestHash`), and keeps the app only when `!(app.manifestHash || !app.id)`;
any failure is caught and yields a resolved empty outcome. -/

/-- A network dapp record as built by `fetchRegistryApp` (`type` is the JS
field name, called `dappType` here). -/
structure NetworkDapp where
  id : String
  image : String
  contentHash : String
  manifestHash : Option String
  dappType : String
  visible : Bool
  author : Option String
  description : Option String
  name : Option String
  version : Option String
deriving DecidableEq, Repr

/-- JS truthiness of `app.manifestHash` (`null` and the empty string are
falsy). -/
def manifestHashTruthy (mh : Option String) : Bool :=
  match mh with
  | some s => s ≠ ""
  | none => false

/-- Run of `fetchRegistryApp` (lines 141-179). `hashToImage` is the icon
cache collaborator; `imageR`, `contentR`, `manifestR` settle the three
parallel hash fetches; `httpR` settles the manifest HTTP request. Returns
the settled promise and whether the manifest HTTP request was issued. -/
def fetchRegistryApp_run (appId : String) (hashToImage : List Nat → String)
    (imageR contentR manifestR : PResult (List Nat))
    (httpR : PResult HttpResponse) : PResult (Option NetworkDapp) × Bool :=
  match pAll3 imageR contentR manifestR with
  | .error e => (pCatch (.error e) (fun _ => .ok none), false)
  | .ok (imageId, contentId, manifestId) =>
      let app0 : NetworkDapp :=
        { id := appId
          image := hashToImage imageId
          contentHash := substrFrom (bytesToHex contentId) 2
          manifestHash := some (substrFrom (bytesToHex manifestId) 2)
          dappType := "network"
          visible := true
          author := none
          description := none
          name := none
          version := none }
      let mf := fetchManifest_run (substrFrom (bytesToHex manifestId) 2) httpR
      let chained : PResult (Option NetworkDapp) :=
        pThen mf.1 (fun manifest =>
          let app :=
            match manifest with
            | some m =>
                { app0 with
                  manifestHash := none
                  author := m.author
                  description := m.description
                  name := m.name
                  version := m.version }
            | none => app0
          let dapp :=
            if manifestHashTruthy app.manifestHash || app.id = "" then none
            else some app
          .ok dapp)
      (pCatch chained (fun _ => .ok none), mf.2)

/-! ## fetchRegistryAppIds (dapp registry store, lines 117-139)

Reads `count()`, enumerates `dappReg.at(index)` over `range(0, count)` in
parallel, maps each `[appId, owner]` through `bytesToHex`, filters
`BigNumber(appId).gt(0) && !builtinApps.find(app => app.id === appId)`, and
deduplicates with `uniq`; failures are caught and swallowed. -/

/-- A builtin app as far as the registry filters are concerned (its id). -/
structure BuiltinApp where
  id : String
deriving DecidableEq, Repr

/-- The pure `.then` body of `fetchRegistryAppIds` (lines 127-135). -/
def fetchRegistryAppIds_pure (appsInfo : List (List Nat × String))
    (builtinApps : List BuiltinApp) : List String :=
  uniqList
    ((appsInfo.map (fun p => bytesToHex p.1)).filter
      (fun appId =>
        decide (0 < hexStrVal appId) &&
          (builtinApps.find? (fun app => app.id = appId)).isNone))

/-- Run of `fetchRegistryAppIds` (lines 117-139). `countR` settles
`dappReg.count()`; `atR i` settles `dappReg.at(i)` as an
`[appId bytes, owner]` pair. `.ok none` is the caught-failure outcome. -/
def fetchRegistryAppIds_run (countR : PResult Nat)
    (atR : Nat → PResult (List Nat × String)) (builtinApps : List BuiltinApp) :
    PResult (Option (List String)) :=
  pCatch
    (pThen countR (fun count =>
      pThen (pAll ((List.range count).map atR)) (fun appsInfo =>
        .ok (some (fetchRegistryAppIds_pure appsInfo builtinApps)))))
    (fun _ => .ok none)

/-! ## Error-handling boundaries (spec section 7)

Run models for the remaining public functions, carrying only the structure
of their promise chains: every collaborator call is an oracle, every pure
`.then` body resolves, so the settled result captures exactly which
collaborator failures each function's `.catch` boundary absorbs. -/

/-- Whether a settled promise is fulfilled (did not reject). -/
def pResolved {α : Type} : PResult α → Bool
  | .ok _ => true
  | .error _ => false

/-- Run of `subscribeToChanges` (dapp registry store, lines 35-80): resolve
the contract, create the log filter, subscribe to `eth_blockNumber`, and
resolve `{ block, filter }`. The chain has no `.catch`. -/
def subscribeToChanges_run (getContractR : PResult Contract)
    (newFilterR : PResult Nat) (blockSubR : PResult Nat) :
    PResult (Nat × Nat) :=
  pThen getContractR (fun _ =>
    pThen newFilterR (fun filterId =>
      pThen blockSubR (fun blockSubId => .ok (blockSubId, filterId))))

/-- The sequential batch chain of `loadTokensBasics` (lines 133-146): each
`fetchTokensBasics` call is chained after the previous one, and its results
are merged by a pure callback. -/
def runBatches (batchR : Nat → PResult (List Token)) : List Nat → PResult Unit
  | [] => .ok ()
  | start :: rest => pThen (batchR start) (fun _ => runBatches batchR rest)

/-- Run of `loadTokensBasics` (lines 109-157): the early `Promise.resolve()`
when nothing is left to fetch, else contract resolution, the chained
batches, the final dispatch, and the trailing `.catch`. -/
def loadTokensBasics_run (stateTokens : TokensMap) (tokenIndexesArg : List Nat)
    (getContractR : PResult Contract) (batchR : Nat → PResult (List Token))
    (dispatchR : PResult Unit) : PResult Unit :=
  let remaining := loadTokensBasics_filteredIndexes stateTokens tokenIndexesArg
  if remaining.length = 0 then .ok ()
  else
    pCatch
      (pThen
        (pThen getContractR
          (fun _ => runBatches batchR (batchStarts remaining.length 64)))
        (fun _ => dispatchR))
      (fun _ => .ok ())

/-- Run of `loadTokens` (lines 90-107): contract resolution, the synchronous
`loadCachedTokens` step (whose throw would reject the chain), the
`fetchTokenIds` call, the chained `loadTokensBasics` run, and the trailing
`.catch`. -/
def loadTokens_run (getContractR : PResult Contract) (cacheStepR : PResult Unit)
    (fetchTokenIdsR : PResult (List Nat)) (basicsR : PResult Unit) :
    PResult Unit :=
  pCatch
    (pThen
      (pThen getContractR (fun _ => pThen cacheStepR (fun _ => fetchTokenIdsR)))
      (fun _ => basicsR))
    (fun _ => .ok ())

/-- Run of `fetchBuiltinApps` (dapp registry store, lines 82-99):
`Promise.all` over the per-app `getImage` calls, a pure enrichment `.then`,
and a trailing `.catch`; the fulfilled value is irrelevant to the rejection
behaviour verified here. -/
def fetchBuiltinApps_run (imageIdsR : List (PResult (List Nat))) : PResult Unit :=
  pCatch (pThen (pAll imageIdsR) (fun _ => .ok ())) (fun _ => .ok ())

/-- A local dapp as far as the filter of `fetchLocalApps` is concerned. -/
structure LocalApp where
  id : String
deriving DecidableEq, Repr

/-- Run of `fetchLocalApps` (dapp registry store, lines 101-115):
`api.parity.dappsList()`, a pure tag-and-filter `.then` (keeping apps with a
truthy id other than `'ui'`), and a trailing `.catch`. -/
def fetchLocalApps_run (dappsListR : PResult (List LocalApp)) :
    PResult (Option (List LocalApp)) :=
  pCatch
    (pThen dappsListR (fun apps =>
      .ok (some (apps.filter (fun app =>
        app.id != "" && !(["ui"].contains app.id))))))
    (fun _ => .ok none)

/-! ## Theorems -/

theorem classify_aux (allTokens : List Token) (l : List Nat) :
    ∀ acc : List Nat × List Nat,
      l.foldl
        (fun acc tokenIndex =>
          if (fetchedTokenIndexes allTokens).contains tokenIndex then
            (acc.1, acc.2 ++ [tokenIndex])
          else
            (acc.1 ++ [tokenIndex], acc.2))
        acc =
      (acc.1 ++ l.filter (fun i => !((fetchedTokenIndexes allTokens).contains i)),
       acc.2 ++ l.filter (fun i => (fetchedTokenIndexes allTokens).contains i)) := by
  induction l with
  | nil => intro acc; simp
  | cons x xs ih =>
      intro acc
      by_cases hx : (fetchedTokenIndexes allTokens).contains x = true
      · have hx' : x ∈ fetchedTokenIndexes allTokens := List.elem_iff.mp hx
        simp only [List.foldl_cons, hx, if_pos, List.filter_cons]
        rw [ih]
        simp [hx, hx']
      · have hx' : x ∉ fetchedTokenIndexes allTokens := by
          simpa using hx
        simp only [List.foldl_cons, List.filter_cons]
        rw [if_neg (by simpa using hx), ih]
        simp [hx, hx']

theorem classifyTokenIndexes_eq (allTokens : List Token) (tokenIndexes : List Nat) :
    classifyTokenIndexes allTokens tokenIndexes =
      (tokenIndexes.filter (fun i => !((fetchedTokenIndexes allTokens).contains i)),
       tokenIndexes.filter (fun i => (fetchedTokenIndexes allTokens).contains i)) := by
  unfold classifyTokenIndexes
  rw [classify_aux]
  simp

theorem mem_fetchedTokenIndexes (allTokens : List Token) (i : Nat) :
    (fetchedTokenIndexes allTokens).contains i = true ↔
      ∃ t ∈ allTokens, t.fetched = true ∧ t.index = i := by
  rw [List.elem_iff]
  simp only [fetchedTokenIndexes, List.mem_map, List.mem_filter]
  constructor
  · rintro ⟨t, ⟨ht, hf⟩, hidx⟩
    exact ⟨t, ht, hf, hidx⟩
  · rintro ⟨t, ht, hf, hidx⟩
    exact ⟨t, ⟨ht, hf⟩, hidx⟩

/-- C1: for every requested token index, the index is routed to the
image-only (partial) path iff the in-memory state holds a token with that
index whose `fetched` flag is true; every other requested index goes to the
full-info path, and each requested index goes to exactly one of the two. -/
theorem C1_fetch_classification (allTokens : List Token) (tokenIndexes : List Nat)
    (i : Nat) (hi : i ∈ tokenIndexes) :
    ((i ∈ (classifyTokenIndexes allTokens tokenIndexes).2 ↔
        ∃ t ∈ allTokens, t.fetched = true ∧ t.index = i) ∧
      (i ∈ (classifyTokenIndexes allTokens tokenIndexes).1 ↔
        ¬ ∃ t ∈ allTokens, t.fetched = true ∧ t.index = i)) ∧
      ¬ (i ∈ (classifyTokenIndexes allTokens tokenIndexes).1 ∧
          i ∈ (classifyTokenIndexes allTokens tokenIndexes).2) := by
  rw [classifyTokenIndexes_eq]
  simp only [List.mem_filter, Bool.not_eq_true', ← mem_fetchedTokenIndexes]
  constructor
  · constructor
    · constructor
      · rintro ⟨-, h⟩; exact h
      · intro h; exact ⟨hi, h⟩
    · constructor
      · rintro ⟨-, h⟩
        simp [Bool.not_eq_true] at h
        simp [h]
      · intro h
        refine ⟨hi, ?_⟩
        simpa using h
  · rintro ⟨⟨-, h1⟩, ⟨-, h2⟩⟩
    rw [h2] at h1
    exact absurd h1 (by simp)

/-- Witness for C1 at a concrete state and request: state holds a fetched
token at index 3 and an unfetched token at index 5; index 3 is requested. -/
theorem C1_fetch_classification_witness :
    (3 ∈ [3, 5, 9]) ∧
      ((3 ∈ (classifyTokenIndexes
            [⟨"tok-a", 3, "0xa", "A", "AAA", "a", true, none⟩,
             ⟨"tok-b", 5, "0xb", "B", "BBB", "b", false, none⟩] [3, 5, 9]).2 ↔
          ∃ t ∈ [⟨"tok-a", 3, "0xa", "A", "AAA", "a", true, none⟩,
             (⟨"tok-b", 5, "0xb", "B", "BBB", "b", false, none⟩ : Token)],
            t.fetched = true ∧ t.index = 3) ∧
        (3 ∈ (classifyTokenIndexes
            [⟨"tok-a", 3, "0xa", "A", "AAA", "a", true, none⟩,
             ⟨"tok-b", 5, "0xb", "B", "BBB", "b", false, none⟩] [3, 5, 9]).1 ↔
          ¬ ∃ t ∈ [⟨"tok-a", 3, "0xa", "A", "AAA", "a", true, none⟩,
             (⟨"tok-b", 5, "0xb", "B", "BBB", "b", false, none⟩ : Token)],
            t.fetched = true ∧ t.index = 3)) ∧
        ¬ (3 ∈ (classifyTokenIndexes
            [⟨"tok-a", 3, "0xa", "A", "AAA", "a", true, none⟩,
             ⟨"tok-b", 5, "0xb", "B", "BBB", "b", false, none⟩] [3, 5, 9]).1 ∧
            3 ∈ (classifyTokenIndexes
            [⟨"tok-a", 3, "0xa", "A", "AAA", "a", true, none⟩,
             ⟨"tok-b", 5, "0xb", "B", "BBB", "b", false, none⟩] [3, 5, 9]).2) :=
  ⟨by decide,
   C1_fetch_classification
     [⟨"tok-a", 3, "0xa", "A", "AAA", "a", true, none⟩,
      ⟨"tok-b", 5, "0xb", "B", "BBB", "b", false, none⟩] [3, 5, 9] 3 (by decide)⟩

/-- C7: on every `setTokens` call the dispatch of the new tokens occurs and
the returned promise resolves, whether or not contract resolution or the
cache write failed; when both succeed, the merged token map together with
the resolved registry address is persisted under the chain-scoped key. -/
theorem C7_setTokens_persist_and_dispatch (prevTokens nextTokens : TokensMap)
    (netChain : String) (getContractR : PResult Contract) (storeSetFails : Bool) :
    (setTokens_run prevTokens nextTokens netChain getContractR storeSetFails).dispatched =
        some nextTokens ∧
      (setTokens_run prevTokens nextTokens netChain getContractR storeSetFails).result =
        .ok () ∧
      (∀ c : Contract, getContractR = .ok c → storeSetFails = false →
        (setTokens_run prevTokens nextTokens netChain getContractR storeSetFails).stored =
          some (tokensCacheKey netChain,
            ⟨c.address, some (jsMergeTokens prevTokens nextTokens)⟩)) := by
  refine ⟨?_, ?_, ?_⟩
  · cases getContractR with
    | ok c => by_cases h : storeSetFails = true <;> simp [setTokens_run, h]
    | error e => simp [setTokens_run]
  · cases getContractR with
    | ok c => by_cases h : storeSetFails = true <;> simp [setTokens_run, h]
    | error e => simp [setTokens_run]
  · intro c hc hs
    subst hc hs
    simp [setTokens_run]

/-- Witness for C7 at a concrete input where contract resolution and the
cache write both succeed. -/
theorem C7_setTokens_persist_and_dispatch_witness :
    (setTokens_run [] [("tok-a", ⟨"tok-a", 1, "0xa", "A", "AAA", "a", true, none⟩)]
          "foundation" (.ok ⟨"0xreg"⟩) false).dispatched =
        some [("tok-a", ⟨"tok-a", 1, "0xa", "A", "AAA", "a", true, none⟩)] ∧
      (setTokens_run [] [("tok-a", ⟨"tok-a", 1, "0xa", "A", "AAA", "a", true, none⟩)]
          "foundation" (.ok ⟨"0xreg"⟩) false).result = .ok () ∧
      (setTokens_run [] [("tok-a", ⟨"tok-a", 1, "0xa", "A", "AAA", "a", true, none⟩)]
          "foundation" (.ok ⟨"0xreg"⟩) false).stored =
        some (tokensCacheKey "foundation",
          ⟨"0xreg", some (jsMergeTokens []
            [("tok-a", ⟨"tok-a", 1, "0xa", "A", "AAA", "a", true, none⟩)])⟩) := by
  obtain ⟨h1, h2, h3⟩ :=
    C7_setTokens_persist_and_dispatch []
      [("tok-a", ⟨"tok-a", 1, "0xa", "A", "AAA", "a", true, none⟩)]
      "foundation" (.ok ⟨"0xreg"⟩) false
  exact ⟨h1, h2, h3 ⟨"0xreg"⟩ rfl rfl⟩

/-- C3: a cached entry is dispatched only when its stored registry address
equals the currently resolved contract address, and when the addresses
differ nothing is dispatched and the entry is removed from the store. -/
theorem C3_cache_trust (tokenRegContract : Contract) (netChain : String)
    (entry : CacheEntry) :
    (∀ cachedTokens : TokensMap,
        (loadCachedTokens_run tokenRegContract netChain (some entry)).dispatched =
            some cachedTokens →
          entry.tokenreg = tokenRegContract.address) ∧
      (entry.tokenreg ≠ tokenRegContract.address →
        (loadCachedTokens_run tokenRegContract netChain (some entry)).dispatched = none ∧
          (loadCachedTokens_run tokenRegContract netChain (some entry)).removedKey =
            some (tokensCacheKey netChain)) := by
  constructor
  · intro cachedTokens hdisp
    cases htoks : entry.tokens with
    | none => simp [loadCachedTokens_run, htoks] at hdisp
    | some cts =>
        by_cases haddr : entry.tokenreg = tokenRegContract.address
        · exact haddr
        · simp [loadCachedTokens_run, htoks, haddr] at hdisp
  · intro haddr
    cases htoks : entry.tokens with
    | none => simp [loadCachedTokens_run, htoks]
    | some cts => simp [loadCachedTokens_run, htoks, haddr]

/-- Witness for C3 at a concrete stale entry whose stored address differs
from the resolved contract address. -/
theorem C3_cache_trust_witness :
    (("0xstale" : String) ≠ "0xreg") ∧
      ((loadCachedTokens_run ⟨"0xreg"⟩ "foundation"
            (some ⟨"0xstale", some []⟩)).dispatched = none ∧
        (loadCachedTokens_run ⟨"0xreg"⟩ "foundation"
            (some ⟨"0xstale", some []⟩)).removedKey =
          some (tokensCacheKey "foundation")) :=
  ⟨by decide,
   (C3_cache_trust ⟨"0xreg"⟩ "foundation" ⟨"0xstale", some []⟩).2 (by decide)⟩

theorem mem_uniqAux {α : Type} [DecidableEq α] (l : List α) :
    ∀ (seen : List α) (a : α), a ∈ uniqAux seen l ↔ a ∈ l ∧ a ∉ seen := by
  induction l with
  | nil => intro seen a; simp [uniqAux]
  | cons x xs ih =>
      intro seen a
      rw [uniqAux]
      by_cases hx : seen.contains x = true
      · have hx' : x ∈ seen := List.elem_iff.mp hx
        rw [if_pos hx, ih seen a]
        constructor
        · rintro ⟨ha, hns⟩
          exact ⟨List.mem_cons_of_mem _ ha, hns⟩
        · rintro ⟨ha, hns⟩
          rcases List.mem_cons.mp ha with rfl | ha
          · exact absurd hx' hns
          · exact ⟨ha, hns⟩
      · have hx' : x ∉ seen := by simpa using hx
        rw [if_neg hx]
        constructor
        · intro h
          rcases List.mem_cons.mp h with rfl | h
          · exact ⟨List.mem_cons_self _ _, hx'⟩
          · rcases (ih _ a).mp h with ⟨ha, hns⟩
            refine ⟨List.mem_cons_of_mem _ ha, fun hs => hns ?_⟩
            exact List.mem_append_left _ hs
        · rintro ⟨ha, hns⟩
          rcases List.mem_cons.mp ha with rfl | ha
          · exact List.mem_cons_self _ _
          · by_cases hax : a = x
            · subst hax; exact List.mem_cons_self _ _
            · refine List.mem_cons_of_mem _ ((ih _ a).mpr ⟨ha, ?_⟩)
              intro hs
              rcases List.mem_append.mp hs with hs | hs
              · exact hns hs
              · simp at hs; exact hax hs

theorem nodup_uniqAux {α : Type} [DecidableEq α] (l : List α) :
    ∀ seen : List α, (uniqAux seen l).Nodup := by
  induction l with
  | nil => intro seen; simp [uniqAux]
  | cons x xs ih =>
      intro seen
      rw [uniqAux]
      by_cases hx : seen.contains x = true
      · rw [if_pos hx]; exact ih seen
      · rw [if_neg hx]
        refine List.nodup_cons.mpr ⟨?_, ih _⟩
        intro hmem
        rcases (mem_uniqAux xs _ x).mp hmem with ⟨-, hns⟩
        exact hns (List.mem_append_right _ (by simp))

theorem mem_uniqList {α : Type} [DecidableEq α] (l : List α) (a : α) :
    a ∈ uniqList l ↔ a ∈ l := by
  rw [uniqList, mem_uniqAux]
  simp

theorem nodup_uniqList {α : Type} [DecidableEq α] (l : List α) :
    (uniqList l).Nodup :=
  nodup_uniqAux l []

/-- C10: called with a null/undefined index list, `fetchTokens` creates no
chunk (so no fetch is performed) and its returned promise resolves for every
collaborator outcome. -/
theorem C10_fetchTokens_null_input :
    fetchTokens_processedChunks none = [] ∧
      ∀ (getContractR : PResult Contract) (chunkR : List Nat → PResult Unit),
        fetchTokens_run none getContractR chunkR = .ok () := by
  have hchunks : fetchTokens_processedChunks none = [] := by
    rw [fetchTokens_processedChunks]
    simp [uniqList, uniqAux, chunkList]
  refine ⟨hchunks, ?_⟩
  intro getContractR chunkR
  rw [fetchTokens_run, hchunks]
  cases getContractR <;> simp [pThen, pCatch, runChunks]

/-- C2: no index whose token is already present in the state map is ever
requested by the chained batch fetches of `loadTokensBasics`; every
requested index comes from the call's argument list. -/
theorem C2_loadTokensBasics_no_refetch (stateTokens : TokensMap)
    (tokenIndexesArg : List Nat) (i : Nat)
    (hi : i ∈ loadTokensBasics_fetchedIndexes stateTokens tokenIndexesArg) :
    i ∈ tokenIndexesArg ∧
      ∀ kv ∈ stateTokens, (Prod.snd kv).index ≠ i := by
  have hrem : i ∈ loadTokensBasics_filteredIndexes stateTokens tokenIndexesArg := by
    rw [loadTokensBasics_fetchedIndexes] at hi
    rcases List.mem_flatten.mp hi with ⟨group, hgroup, higroup⟩
    rcases List.mem_map.mp hgroup with ⟨start, -, hstart⟩
    subst hstart
    exact List.drop_subset _ _ (List.take_subset _ _ higroup)
  rw [loadTokensBasics_filteredIndexes] at hrem
  rcases List.mem_filter.mp hrem with ⟨hmem, hnotprev⟩
  refine ⟨hmem, ?_⟩
  intro kv hkv heq
  have hmemidx : i ∈ (stateTokens.map Prod.snd).map (fun t => t.index) := by
    simp only [List.mem_map]
    exact ⟨Prod.snd kv, ⟨kv, hkv, rfl⟩, heq⟩
  have hnotmem : i ∉ (stateTokens.map Prod.snd).map (fun t => t.index) := by
    simpa using hnotprev
  exact hnotmem hmemidx

/-- Witness for C2: state holds a token at index 5; indexes 5 and 7 are
requested, and 7 is among the batched fetches. -/
theorem C2_loadTokensBasics_no_refetch_witness :
    (7 ∈ loadTokensBasics_fetchedIndexes
        [("tok-a", ⟨"tok-a", 5, "0xa", "A", "AAA", "a", true, none⟩)] [5, 7]) ∧
      (7 ∈ [5, 7] ∧
        ∀ kv ∈ [("tok-a", (⟨"tok-a", 5, "0xa", "A", "AAA", "a", true, none⟩ : Token))],
          (Prod.snd kv).index ≠ 7) :=
  ⟨by decide,
   C2_loadTokensBasics_no_refetch
     [("tok-a", ⟨"tok-a", 5, "0xa", "A", "AAA", "a", true, none⟩)] [5, 7] 7
     (by decide)⟩

theorem foldl_lastIndexed_no_match (i : Nat) (l : List Token)
    (hnone : ∀ u ∈ l, u.index ≠ i) (acc : Option Token) :
    l.foldl (fun acc token => if token.index = i then some token else acc) acc =
      acc := by
  induction l generalizing acc with
  | nil => rfl
  | cons u us ih =>
      have hu : u.index ≠ i := hnone u (List.mem_cons_self u us)
      simp only [List.foldl_cons, if_neg hu]
      exact ih (fun v hv => hnone v (List.mem_cons_of_mem _ hv)) acc

theorem tokensIndexesMapAt_of_nodup (allTokens : List Token) (t : Token)
    (hnd : (allTokens.map (fun u => u.index)).Nodup) (ht : t ∈ allTokens) :
    tokensIndexesMapAt allTokens t.index = some t := by
  rw [tokensIndexesMapAt]
  induction allTokens with
  | nil => cases ht
  | cons u us ih =>
      rcases List.mem_cons.mp ht with rfl | htu
      · have hrest : ∀ v ∈ us, v.index ≠ t.index := by
          intro v hv hvi
          have : t.index ∈ us.map (fun u => u.index) :=
            List.mem_map.mpr ⟨v, hv, hvi⟩
          exact (List.nodup_cons.mp hnd).1 this
        simp only [List.foldl_cons, if_pos rfl]
        exact foldl_lastIndexed_no_match _ _ hrest _
      · have hu : u.index ≠ t.index := by
          intro hui
          have hmm : t.index ∈ us.map (fun v => v.index) :=
            List.mem_map.mpr ⟨t, htu, rfl⟩
          rw [← hui] at hmm
          exact (List.nodup_cons.mp hnd).1 hmm
        simp only [List.foldl_cons, if_neg hu]
        exact ih (List.nodup_cons.mp hnd).2 htu

theorem zip_getElem? {α β : Type} (as : List α) (bs : List β) (k : Nat) :
    (as.zip bs)[k]? =
      match as[k]?, bs[k]? with
      | some a, some b => some (a, b)
      | _, _ => none := by
  induction as generalizing bs k with
  | nil => simp
  | cons a as ih =>
      cases bs with
      | nil => simp
      | cons b bs =>
          cases k with
          | zero => simp
          | succ m => simpa using ih bs m

/-- C8: when the index of a state token `t` with `fetched = true` is
requested again (state token indexes being pairwise distinct, as the map is
keyed by id with one registry slot per token), the token built by the
image-only path at that position is exactly `t` with its image field
replaced by the newly fetched image — id, index, address, name, symbol,
format and fetched are unchanged. -/
theorem C8_partial_path_only_image_changes (allTokens : List Token) (t : Token)
    (partialIndexes : List Nat) (imagesResult : List String) (k : Nat)
    (image : String)
    (hnd : (allTokens.map (fun u => u.index)).Nodup) (ht : t ∈ allTokens)
    (_hfetched : t.fetched = true)
    (hk : partialIndexes[k]? = some t.index)
    (himg : imagesResult[k]? = some image) :
    (partialPathResults allTokens partialIndexes imagesResult)[k]? =
      some { t with image := some image } := by
  rw [partialPathResults, List.getElem?_map, zip_getElem?, hk, himg]
  have hlook := tokensIndexesMapAt_of_nodup allTokens t hnd ht
  simp [hlook, spreadTokenImage]

/-- Witness for C8: state holds fetched token `tok-a` at index 3 (plus
another token at index 5); index 3 sits at position 0 of the partial list
and gets image `img-new`. -/
theorem C8_partial_path_only_image_changes_witness :
    ((([⟨"tok-a", 3, "0xa", "A", "AAA", "a", true, some "img-old"⟩,
        ⟨"tok-b", 5, "0xb", "B", "BBB", "b", true, none⟩] : List Token).map
          (fun u => u.index)).Nodup ∧
      (⟨"tok-a", 3, "0xa", "A", "AAA", "a", true, some "img-old"⟩ : Token) ∈
        ([⟨"tok-a", 3, "0xa", "A", "AAA", "a", true, some "img-old"⟩,
          ⟨"tok-b", 5, "0xb", "B", "BBB", "b", true, none⟩] : List Token)) ∧
      (partialPathResults
          [⟨"tok-a", 3, "0xa", "A", "AAA", "a", true, some "img-old"⟩,
           ⟨"tok-b", 5, "0xb", "B", "BBB", "b", true, none⟩]
          [3, 5] ["img-new", "img-b"])[0]? =
        some ⟨"tok-a", 3, "0xa", "A", "AAA", "a", true, some "img-new"⟩ :=
  ⟨⟨by decide, by decide⟩,
   C8_partial_path_only_image_changes
     [⟨"tok-a", 3, "0xa", "A", "AAA", "a", true, some "img-old"⟩,
      ⟨"tok-b", 5, "0xb", "B", "BBB", "b", true, none⟩]
     ⟨"tok-a", 3, "0xa", "A", "AAA", "a", true, some "img-old"⟩
     [3, 5] ["img-new", "img-b"] 0 "img-new"
     (by decide) (by decide) rfl rfl rfl⟩

/-- C9: for every manifest hash matching `/^(0x)?0+/`, `fetchManifest`
resolves to `null` without issuing any HTTP request, whatever the HTTP
collaborator would have answered. -/
theorem C9_fetchManifest_zero_hash (manifestHash : String)
    (httpR : PResult HttpResponse)
    (hzero : zeroHashRegexTest manifestHash = true) :
    fetchManifest_run manifestHash httpR = (.ok none, false) := by
  rw [fetchManifest_run, if_pos hzero]

/-- Witness for C9 at the all-zero hash (and an HTTP collaborator that would
have answered). -/
theorem C9_fetchManifest_zero_hash_witness :
    zeroHashRegexTest "0000000000000000000000000000000000000000000000000000000000000000" =
        true ∧
      fetchManifest_run
          "0000000000000000000000000000000000000000000000000000000000000000"
          (.ok ⟨true, .ok ⟨none, none, some "SomeApp", none⟩⟩) =
        (.ok none, false) :=
  ⟨by decide,
   C9_fetchManifest_zero_hash
     "0000000000000000000000000000000000000000000000000000000000000000"
     (.ok ⟨true, .ok ⟨none, none, some "SomeApp", none⟩⟩) (by decide)⟩

/-- C5 counterexample: the app's on-chain manifest hash `0x0100` is non-zero
(value 256), yet `fetchRegistryApp` issues no HTTP request for it, because
the unanchored regex `/^(0x)?0+/` already matches its leading zero digit. -/
theorem C5_counterexample :
    0 < hexStrVal (substrFrom (bytesToHex [1, 0]) 2) ∧
      (fetchRegistryApp_run "0xbeef" (fun _ => "img")
          (.ok [0]) (.ok [0]) (.ok [1, 0])
          (.ok ⟨true, .ok ⟨none, none, some "SomeApp", none⟩⟩)).2 = false := by
  constructor
  · decide
  · rfl

/-- C5 amended: the manifest HTTP request is issued exactly when the three
hash fetches all succeed and the manifest hash (the hex string after the
`0x` prefix is stripped) does not match `/^(0x)?0+/` — i.e. does not begin
with a zero digit. Only for such hashes, not for every non-zero hash, is the
JSON manifest resolved over HTTP, and never after any of the three hash
fetches failed. -/
theorem C5_amended_http_iff_regex_fails (appId : String)
    (hashToImage : List Nat → String)
    (imageR contentR manifestR : PResult (List Nat))
    (httpR : PResult HttpResponse) :
    (fetchRegistryApp_run appId hashToImage
          imageR contentR manifestR httpR).2 = true ↔
      ∃ imageId contentId manifestId : List Nat,
        imageR = .ok imageId ∧ contentR = .ok contentId ∧
          manifestR = .ok manifestId ∧
          zeroHashRegexTest (substrFrom (bytesToHex manifestId) 2) = false := by
  cases imageR with
  | error e =>
      rw [fetchRegistryApp_run]
      constructor
      · intro h
        simp only [pAll3, pThen] at h
        exact absurd h (by simp)
      · rintro ⟨i, c, m, hi, -, -, -⟩
        exact Except.noConfusion hi
  | ok imageId =>
      cases contentR with
      | error e =>
          rw [fetchRegistryApp_run]
          constructor
          · intro h
            simp only [pAll3, pThen] at h
            exact absurd h (by simp)
          · rintro ⟨i, c, m, -, hc, -, -⟩
            exact Except.noConfusion hc
      | ok contentId =>
          cases manifestR with
          | error e =>
              rw [fetchRegistryApp_run]
              constructor
              · intro h
                simp only [pAll3, pThen] at h
                exact absurd h (by simp)
              · rintro ⟨i, c, m, -, -, hm, -⟩
                exact Except.noConfusion hm
          | ok manifestId =>
              rw [fetchRegistryApp_run]
              simp only [pAll3, pThen]
              rw [fetchManifest_run]
              by_cases hz : zeroHashRegexTest
                  (substrFrom (bytesToHex manifestId) 2) = true
              · rw [if_pos hz]
                constructor
                · intro h
                  exact absurd h (by simp)
                · rintro ⟨i, c, m, hi, hc, hm, hzf⟩
                  injection hm with hm
                  subst hm
                  rw [hz] at hzf
                  exact Bool.noConfusion hzf
              · rw [if_neg hz]
                simp only [Bool.not_eq_true] at hz
                constructor
                · intro h
                  exact ⟨imageId, contentId, manifestId, rfl, rfl, rfl, hz⟩
                · intro h
                  rfl

/-- C6: whenever `fetchRegistryAppIds` succeeds (the non-caught path), its
list of app ids has no duplicates, no id of numeric value zero, and no id
that appears in the builtin app list. -/
theorem C6_registry_app_ids_filtered (countR : PResult Nat)
    (atR : Nat → PResult (List Nat × String)) (builtinApps : List BuiltinApp)
    (ids : List String)
    (hok : fetchRegistryAppIds_run countR atR builtinApps = .ok (some ids)) :
    ids.Nodup ∧
      ∀ appId ∈ ids, 0 < hexStrVal appId ∧
        ∀ app ∈ builtinApps, app.id ≠ appId := by
  have hids : ∃ appsInfo : List (List Nat × String),
      ids = fetchRegistryAppIds_pure appsInfo builtinApps := by
    rw [fetchRegistryAppIds_run] at hok
    cases hcount : countR with
    | error e => rw [hcount] at hok; simp [pThen, pCatch] at hok
    | ok count =>
        rw [hcount] at hok
        cases hall : pAll ((List.range count).map atR) with
        | error e =>
            rw [pThen, hall] at hok
            simp [pThen, pCatch] at hok
        | ok appsInfo =>
            rw [pThen, hall] at hok
            simp only [pThen, pCatch] at hok
            exact ⟨appsInfo, by injection hok with h; injection h with h2; exact h2.symm⟩
    
  rcases hids with ⟨appsInfo, rfl⟩
  rw [fetchRegistryAppIds_pure]
  refine ⟨nodup_uniqList _, ?_⟩
  intro appId hmem
  have hmemf := (mem_uniqList _ _).mp hmem
  rcases List.mem_filter.mp hmemf with ⟨-, hpred⟩
  rcases Bool.and_eq_true_iff.mp hpred with ⟨hpos, hnone⟩
  refine ⟨by simpa using hpos, ?_⟩
  intro app happ heq
  have hfind := Option.isNone_iff_eq_none.mp hnone
  rw [List.find?_eq_none] at hfind
  exact absurd (by simpa using heq) (hfind app happ)

/-- Witness for C6 at a concrete registry: three entries (one zero id, one
builtin id, one fresh id duplicated) yield exactly the fresh id once. -/
theorem C6_registry_app_ids_filtered_witness :
    (fetchRegistryAppIds_run (.ok 4)
        (fun i =>
          .ok (if i = 0 then ([0, 0], "owner0")
            else if i = 3 then ([171], "owner3")
            else ([222], "ownerX")))
        [⟨bytesToHex [171]⟩] =
      .ok (some [bytesToHex [222]])) ∧
      ([bytesToHex [222]].Nodup ∧
        ∀ appId ∈ [bytesToHex [222]], 0 < hexStrVal appId ∧
          ∀ app ∈ [(⟨bytesToHex [171]⟩ : BuiltinApp)], app.id ≠ appId) :=
  ⟨rfl,
   C6_registry_app_ids_filtered (.ok 4)
     (fun i =>
       .ok (if i = 0 then ([0, 0], "owner0")
         else if i = 3 then ([171], "owner3")
         else ([222], "ownerX")))
     [⟨bytesToHex [171]⟩] [bytesToHex [222]] rfl⟩

/-- C4 counterexample: `subscribeToChanges` has no `.catch`, so with a
rejecting `getContract` collaborator its returned promise rejects, against
the claim that every listed public function always returns a resolved
promise. -/
theorem C4_counterexample_subscribe_rejects :
    subscribeToChanges_run (.error "getContract rejected") (.ok 7) (.ok 1) =
        .error "getContract rejected" ∧
      pResolved (subscribeToChanges_run (.error "getContract rejected")
          (.ok 7) (.ok 1)) = false :=
  ⟨rfl, rfl⟩

theorem pResolved_pCatch {α : Type} (p : PResult α) (h : String → PResult α)
    (hh : ∀ e, pResolved (h e) = true) : pResolved (pCatch p h) = true := by
  cases p with
  | ok a => rfl
  | error e => exact hh e

/-- C4 amended: every listed public function except `subscribeToChanges`
catches any failure arising inside it and returns a resolved promise, for
every collaborator outcome; `subscribeToChanges` has no catch, and its
returned promise resolves exactly when contract resolution, filter creation
and block subscription all succeed. -/
theorem C4_amended_catch_boundaries :
    (∀ (gc : PResult Contract) (cs : PResult Unit) (ids : PResult (List Nat))
        (b : PResult Unit), pResolved (loadTokens_run gc cs ids b) = true) ∧
      (∀ (st : TokensMap) (arg : List Nat) (gc : PResult Contract)
          (batchR : Nat → PResult (List Token)) (d : PResult Unit),
        pResolved (loadTokensBasics_run st arg gc batchR d) = true) ∧
      (∀ (arg : Option (List Nat)) (gc : PResult Contract)
          (chunkR : List Nat → PResult Unit),
        pResolved (fetchTokens_run arg gc chunkR) = true) ∧
      (∀ imageIdsR : List (PResult (List Nat)),
        pResolved (fetchBuiltinApps_run imageIdsR) = true) ∧
      (∀ dappsListR : PResult (List LocalApp),
        pResolved (fetchLocalApps_run dappsListR) = true) ∧
      (∀ (countR : PResult Nat) (atR : Nat → PResult (List Nat × String))
          (builtins : List BuiltinApp),
        pResolved (fetchRegistryAppIds_run countR atR builtins) = true) ∧
      (∀ (appId : String) (hashToImage : List Nat → String)
          (imageR contentR manifestR : PResult (List Nat))
          (httpR : PResult HttpResponse),
        pResolved (fetchRegistryApp_run appId hashToImage
            imageR contentR manifestR httpR).1 = true) ∧
      (∀ (manifestHash : String) (httpR : PResult HttpResponse),
        pResolved (fetchManifest_run manifestHash httpR).1 = true) ∧
      (∀ (gc : PResult Contract) (nf bs : PResult Nat),
        pResolved (subscribeToChanges_run gc nf bs) =
          (pResolved gc && pResolved nf && pResolved bs)) := by
  refine ⟨?_, ?_, ?_, ?_, ?_, ?_, ?_, ?_, ?_⟩
  · intro gc cs ids b
    exact pResolved_pCatch _ _ (fun e => rfl)
  · intro st arg gc batchR d
    rw [loadTokensBasics_run]
    by_cases h : (loadTokensBasics_filteredIndexes st arg).length = 0
    · rw [if_pos h]; rfl
    · rw [if_neg h]
      exact pResolved_pCatch _ _ (fun e => rfl)
  · intro arg gc chunkR
    exact pResolved_pCatch _ _ (fun e => rfl)
  · intro imageIdsR
    exact pResolved_pCatch _ _ (fun e => rfl)
  · intro dappsListR
    exact pResolved_pCatch _ _ (fun e => rfl)
  · intro countR atR builtins
    exact pResolved_pCatch _ _ (fun e => rfl)
  · intro appId hashToImage imageR contentR manifestR httpR
    rw [fetchRegistryApp_run]
    split
    · rename_i e he
      exact pResolved_pCatch (Except.error e) (fun _ => Except.ok none)
        (fun e' => rfl)
    · exact pResolved_pCatch _ (fun _ => Except.ok none) (fun e' => rfl)
  · intro manifestHash httpR
    rw [fetchManifest_run]
    by_cases h : zeroHashRegexTest manifestHash = true
    · rw [if_pos h]; rfl
    · rw [if_neg h]
      exact pResolved_pCatch _ _ (fun e => rfl)
  · intro gc nf bs
    cases gc with
    | error e => rfl
    | ok c =>
        cases nf with
        | error e => rfl
        | ok f =>
            cases bs with
            | error e => rfl
            | ok b => rfl
